import Mathlib

/- Verification development for the NDFileFITS file-writer plugin
   (src/ADApp/pluginSrc/NDFileFITS.cpp).  The plugin converts an in-memory
   multi-dimensional numeric array (an NDArray, with an optional list of typed
   attributes) into a single-HDU FITS image file through the lifecycle
   operations openFile / writeFile / readFile / closeFile.

   The embedding below is a shallow model of those four methods.  External
   collaborators (the cfitsio library calls fits_create_file, fits_create_img,
   fits_write_key, fits_write_img, fits_close_file, and the NDAttribute
   accessors) are modelled as pure state transformers on an explicit
   `FitsState`; their possible backend failures are supplied as Boolean
   oracles so that every error path of the source is reachable in the model.
   Machine integers only ever hold dimension sizes and loop counters here, all
   small and non-negative, so they are modelled as `Nat`; sample values are
   opaque payload data and are modelled as `Int`. -/

namespace NDFileFITS

/- asynStatus return values used by the plugin (asynSuccess / asynError). -/
inductive AsynStatus
  | asynSuccess
  | asynError
deriving DecidableEq, Repr

/- NDDataType_t: the sample-type tag of an NDArray.  The C enumeration has
   the eight named members; since a C enum variable can carry a value outside
   the enumeration (which the source handles in its `default:` switch cases),
   the model adds `NDOther` for any such value. -/
inductive NDDataType
  | NDInt8
  | NDUInt8
  | NDInt16
  | NDUInt16
  | NDInt32
  | NDUInt32
  | NDFloat32
  | NDFloat64
  | NDOther (code : Nat)
deriving DecidableEq, Repr

/- NDAttrDataType_t: the type tag of an NDAttribute, again with an extra
   constructor for values outside the enumeration (the source's `default:`). -/
inductive NDAttrDataType
  | NDAttrInt8
  | NDAttrUInt8
  | NDAttrInt16
  | NDAttrUInt16
  | NDAttrInt32
  | NDAttrUInt32
  | NDAttrFloat32
  | NDAttrFloat64
  | NDAttrString
  | NDAttrUndefined
  | NDAttrOther (code : Nat)
deriving DecidableEq, Repr

/- cfitsio data-transfer type codes used by this plugin
   (fits_write_key / fits_write_img second argument). -/
inductive FitsType
  | TSBYTE
  | TBYTE
  | TSHORT
  | TUSHORT
  | TINT
  | TUINT
  | TFLOAT
  | TDOUBLE
  | TSTRING
deriving DecidableEq, Repr

/- cfitsio image bit-depth codes used by fits_create_img in openFile. -/
inductive BitpixCode
  | SBYTE_IMG
  | BYTE_IMG
  | SHORT_IMG
  | USHORT_IMG
  | LONG_IMG
  | ULONG_IMG
  | FLOAT_IMG
  | DOUBLE_IMG
deriving DecidableEq, Repr

/- The value carried by one FITS header card: the numeric union member the
   source passes to fits_write_key, or the string buffer for TSTRING cards. -/
inductive CardValue
  | num (v : Int)
  | str (s : String)
deriving DecidableEq, Repr

/- One header card as written by fits_write_key in openFile:
   the transfer type code, the key name, the value, and the comment
   (the attribute's description string). -/
structure FitsCard where
  keyType : FitsType
  name : String
  value : CardValue
  comment : String
deriving DecidableEq, Repr

/- One NDAttribute as read by openFile: a name, a description, a type tag,
   and its value (numeric value in `ival`, string value in `sval`; only the
   member selected by `dataType` is meaningful, mirroring the C union). -/
structure NDAttribute where
  name : String
  description : String
  dataType : NDAttrDataType
  ival : Int
  sval : String
deriving DecidableEq, Repr

/- The NDArray fields the plugin reads: `dims[i].size` for i < ndims (the
   list models exactly the `ndims` valid entries, so `ndims` is the list
   length), the sample-type tag, the raw sample buffer `pData`, and the
   optional attribute list. -/
structure NDArray where
  dims : List Nat
  dataType : NDDataType
  pData : List Int
  pAttributeList : Option (List NDAttribute)
deriving DecidableEq, Repr

/- pArray->ndims. -/
def NDArray.ndims (a : NDArray) : Nat := a.dims.length

/- The observable state of the open cfitsio file handle `this->pFits`:
   the image HDU created by fits_create_img (bitpix and axis sizes), the
   header cards written so far, the pixel payload committed by
   fits_write_img (transfer code, element count, buffer), and counters of
   how many fits_write_key / fits_write_img calls were issued. -/
structure FitsState where
  image : Option (BitpixCode × List Nat)
  cards : List FitsCard
  payload : Option (FitsType × Nat × List (Option Int))
  keyWriteAttempts : Nat
  imgWriteAttempts : Nat
deriving DecidableEq, Repr

/- A freshly created FITS file: empty header, no image, no payload. -/
def initFits : FitsState :=
  { image := none, cards := [], payload := none
    keyWriteAttempts := 0, imgWriteAttempts := 0 }

/- The bit-depth table of openFile's switch on pArray->dataType
   (NDFileFITS.cpp lines 71-107); `none` is the `default:` case, which makes
   openFile return asynError. -/
def bitpixOf : NDDataType → Option BitpixCode
  | .NDInt8 => some .SBYTE_IMG
  | .NDUInt8 => some .BYTE_IMG
  | .NDInt16 => some .SHORT_IMG
  | .NDUInt16 => some .USHORT_IMG
  | .NDInt32 => some .LONG_IMG
  | .NDUInt32 => some .ULONG_IMG
  | .NDFloat32 => some .FLOAT_IMG
  | .NDFloat64 => some .DOUBLE_IMG
  | .NDOther _ => none

/- The pixel-transfer table of writeFile's switch on pArray->dataType
   (NDFileFITS.cpp lines 256-396); `none` is the `default:` case, which makes
   writeFile return asynError. -/
def transferCode : NDDataType → Option FitsType
  | .NDInt8 => some .TSBYTE
  | .NDUInt8 => some .TBYTE
  | .NDInt16 => some .TSHORT
  | .NDUInt16 => some .TUSHORT
  | .NDInt32 => some .TINT
  | .NDUInt32 => some .TUINT
  | .NDFloat32 => some .TFLOAT
  | .NDFloat64 => some .TDOUBLE
  | .NDOther _ => none

/- The vertical-flip copy loop that every supported branch of writeFile's
   switch repeats verbatim for its own element type (NDFileFITS.cpp, e.g.
   lines 262-268):

     for (z = 0; z < d; z++)
       for (x = 0; x < w; x++)
         for (y = 0; y < h; y++)
           pDst[z*(w*h) + (h-1-y)*w + x] = pSrc[z*(w*h) + y*w + x];

   The destination is the scratch buffer pOut obtained from malloc, so its
   cells are uninitialized until written: the model gives each cell the type
   `Option Int`, `none` meaning uninitialized, and the buffer starts as all
   `none`.  A cell the loop writes receives `src[srcIdx]?`, which is `some`
   of the source sample whenever the source index is in range. -/
def flipCopy (src : List Int) (w h d : Nat) (dst : List (Option Int)) :
    List (Option Int) :=
  (List.range d).foldl (fun dst1 z =>
    (List.range w).foldl (fun dst2 x =>
      (List.range h).foldl (fun dst3 y =>
        dst3.set (z * (w * h) + (h - 1 - y) * w + x)
          (src[z * (w * h) + y * w + x]?))
        dst2)
      dst1)
    dst

/- fits_write_img (cfitsio), modelled as a state transformer.  Following the
   cfitsio calling convention the call is a no-op when the incoming status is
   already an error; otherwise the oracle `imgFail` decides whether the
   backend reports an error (nonzero status) or commits the first `nElements`
   entries of the buffer as the pixel payload.  Every call is counted. -/
def fits_write_img (imgFail : Bool) (pf : FitsState) (tc : FitsType)
    (nElements : Nat) (buf : List (Option Int)) (status : Nat) :
    FitsState × Nat :=
  let pf1 := { pf with imgWriteAttempts := pf.imgWriteAttempts + 1 }
  if status > 0 then (pf1, status)
  else if imgFail then (pf1, 1)
  else ({ pf1 with payload := some (tc, nElements, buf.take nElements) }, 0)

/- Result of one writeFile call: the asynStatus returned, the file state
   afterwards, and whether the scratch buffer pOut was passed to free()
   before returning. -/
structure WriteResult where
  status : AsynStatus
  fits : FitsState
  pOutFreed : Bool
deriving DecidableEq, Repr

/- NDFileFITS::writeFile (NDFileFITS.cpp lines 210-408).
   `mallocFail` is the oracle for the scratch-buffer malloc at line 247,
   `imgFail` the oracle for the fits_write_img backend.

   - nElements is the product of all dims (lines 223-225);
   - w/h/d are chosen by rank (lines 228-245): rank > 3 sets all three to 1
     ("Avoid transposing"), rank 3 takes dims[0..2], rank 2 takes dims[0..1]
     with d = 1, rank 1 takes dims[0] with h = d = 1, and rank 0 leaves the
     initial values w = h = d = 0;
   - pOut = malloc(dataSize) gives an uninitialized buffer with one cell per
     source sample (lines 247-253); on malloc failure writeFile returns
     asynError at once;
   - the switch on dataType (lines 256-396) runs the flip copy and
     fits_write_img for the eight supported types; its `default:` returns
     asynError directly, skipping the free(pOut) at line 398;
   - after the switch pOut is freed and a nonzero status from
     fits_write_img becomes asynError (lines 398-405). -/
def nElementsOf (arr : NDArray) : Nat :=
  arr.dims.foldl (fun acc s => acc * s) 1

/- The w/h/d selection of writeFile (NDFileFITS.cpp lines 228-245): rank > 3
   sets all three to 1 ("Avoid transposing"), rank 3 takes dims[0..2], rank 2
   takes dims[0..1] with d = 1, rank 1 takes dims[0] with h = d = 1, and
   rank 0 leaves the initial values w = h = d = 0. -/
def whdOf (arr : NDArray) : Nat × Nat × Nat :=
  if arr.ndims > 3 then (1, 1, 1)
  else if arr.ndims = 3 then
    (arr.dims.getD 0 0, arr.dims.getD 1 0, arr.dims.getD 2 0)
  else if arr.ndims = 2 then (arr.dims.getD 0 0, arr.dims.getD 1 0, 1)
  else if arr.ndims = 1 then (arr.dims.getD 0 0, 1, 1)
  else (0, 0, 0)

def writeFile (mallocFail imgFail : Bool) (arr : NDArray) (pf : FitsState) :
    WriteResult :=
  let nElements := nElementsOf arr
  let whd := whdOf arr
  if mallocFail then { status := .asynError, fits := pf, pOutFreed := false }
  else
    let pOut : List (Option Int) := List.replicate arr.pData.length none
    match transferCode arr.dataType with
    | none => { status := .asynError, fits := pf, pOutFreed := false }
    | some tc =>
      let out := flipCopy arr.pData whd.1 whd.2.1 whd.2.2 pOut
      let r := fits_write_img imgFail pf tc nElements out 0
      { status := if r.2 > 0 then .asynError else .asynSuccess
        fits := r.1, pOutFreed := true }

/- Modelled from the spec: NDAttribute::getValue for string attributes (host
   framework code, not under src/).  openFile passes getValue a buffer of
   sizeof(attrString)-1 = 80 bytes; per the spec, "String values are copied
   into a fixed-size buffer (80 bytes including terminator) - longer values
   are truncated", so at most 79 characters of the value survive. -/
def strTrunc (s : String) : String := String.mk (s.toList.take 79)

/- What the attribute switch of openFile (NDFileFITS.cpp lines 139-191) does
   for one attribute: write a header card (the eight numeric cases and the
   string case), silently skip it (NDAttrUndefined), or return asynError at
   once (the `default:` case). -/
inductive AttrAction
  | card (c : FitsCard)
  | skip
  | err
deriving DecidableEq, Repr

/- The per-attribute dispatch of openFile's switch on attrDataType:
   Int8/UInt8 -> TBYTE card, Int16 -> TSHORT, UInt16 -> TUSHORT,
   Int32 -> TINT, UInt32 -> TUINT, Float32 -> TFLOAT, Float64 -> TDOUBLE,
   String -> TSTRING with the truncated string, Undefined -> skip,
   anything else -> error.  Each card carries the attribute's name, its value
   and its description (the card comment). -/
def attrAction (a : NDAttribute) : AttrAction :=
  match a.dataType with
  | .NDAttrInt8 => .card ⟨.TBYTE, a.name, .num a.ival, a.description⟩
  | .NDAttrUInt8 => .card ⟨.TBYTE, a.name, .num a.ival, a.description⟩
  | .NDAttrInt16 => .card ⟨.TSHORT, a.name, .num a.ival, a.description⟩
  | .NDAttrUInt16 => .card ⟨.TUSHORT, a.name, .num a.ival, a.description⟩
  | .NDAttrInt32 => .card ⟨.TINT, a.name, .num a.ival, a.description⟩
  | .NDAttrUInt32 => .card ⟨.TUINT, a.name, .num a.ival, a.description⟩
  | .NDAttrFloat32 => .card ⟨.TFLOAT, a.name, .num a.ival, a.description⟩
  | .NDAttrFloat64 => .card ⟨.TDOUBLE, a.name, .num a.ival, a.description⟩
  | .NDAttrString => .card ⟨.TSTRING, a.name, .str (strTrunc a.sval), a.description⟩
  | .NDAttrUndefined => .skip
  | .NDAttrOther _ => .err

/- The card an attribute contributes, if any (none both for the skipped
   undefined type and for the error case). -/
def cardOf (a : NDAttribute) : Option FitsCard :=
  match attrAction a with
  | .card c => some c
  | _ => none

/- fits_write_key (cfitsio), modelled as a state transformer.  Following the
   cfitsio calling convention the call does nothing when the incoming status
   is already an error; otherwise the oracle `keyFail` decides, from the
   index of this call, whether the backend reports an error (nonzero status)
   or appends the card to the header.  Every call is counted. -/
def fits_write_key (keyFail : Nat → Bool) (pf : FitsState) (c : FitsCard)
    (status : Nat) : FitsState × Nat :=
  let k := pf.keyWriteAttempts
  let pf1 := { pf with keyWriteAttempts := k + 1 }
  if status > 0 then (pf1, status)
  else if keyFail k then (pf1, 1)
  else ({ pf1 with cards := pf1.cards ++ [c] }, 0)

/- The attribute loop of openFile (NDFileFITS.cpp lines 123-194): iterate the
   list in order; a supported attribute issues one fits_write_key call, an
   undefined one is skipped, and an unmapped one makes openFile return
   asynError immediately (modelled by `Except.error` carrying the state at
   that moment).  The accumulated cfitsio status is threaded through and
   returned with the final state when the whole list has been traversed. -/
def writeAttrs (keyFail : Nat → Bool) (pf : FitsState) (status : Nat) :
    List NDAttribute → Except FitsState (FitsState × Nat)
  | [] => .ok (pf, status)
  | a :: rest =>
    match attrAction a with
    | .err => .error pf
    | .skip => writeAttrs keyFail pf status rest
    | .card c =>
      let r := fits_write_key keyFail pf c status
      writeAttrs keyFail r.1 r.2 rest

/- Result of one openFile call: the asynStatus returned, whether a file was
   created on disk, and the file handle contents (`none` when no file
   exists). -/
structure OpenResult where
  status : AsynStatus
  fileCreated : Bool
  pFits : Option FitsState
deriving DecidableEq, Repr

/- NDFileFITS::openFile (NDFileFITS.cpp lines 30-205).
   `createFail`, `naxesFail`, `imgCreateFail` and `keyFail` are the backend /
   allocation oracles for fits_create_file, the naxes malloc, fits_create_img
   and fits_write_key.  The open-mode mask uses the NDFileOpenMode_t bits
   NDFileModeRead = 0x1 and NDFileModeAppend = 0x4.

   - a mode with the read or append bit set returns asynError before any
     file is created (lines 40-43);
   - fits_create_file creates the empty file; a backend failure returns
     asynError (lines 46-53);
   - ndims == 0 returns asynError (line 56), as does a naxes malloc failure
     (lines 58-64); naxes[i] = dims[i].size in order (lines 66-68);
   - the switch on dataType calls fits_create_img with the mapped bitpix and
     naxes; its `default:` returns asynError (lines 71-107).  The status of
     fits_create_img is not checked here; it is only seen by the final
     status > 0 test inside the attribute branch;
   - if the array has an attribute list it is traversed by the attribute
     loop, and afterwards a positive accumulated status returns asynError
     (lines 112-202); otherwise openFile returns asynSuccess. -/
def openFile (createFail naxesFail imgCreateFail : Bool)
    (keyFail : Nat → Bool) (fileName : String) (openMode : Nat)
    (arr : NDArray) : OpenResult :=
  if openMode.testBit 0 then ⟨.asynError, false, none⟩
  else if openMode.testBit 2 then ⟨.asynError, false, none⟩
  else if createFail then ⟨.asynError, false, none⟩
  else
    let naxis := arr.ndims
    if naxis = 0 then ⟨.asynError, true, some initFits⟩
    else if naxesFail then ⟨.asynError, true, some initFits⟩
    else
      let naxes := arr.dims
      match bitpixOf arr.dataType with
      | none => ⟨.asynError, true, some initFits⟩
      | some bp =>
        let pf1 : FitsState :=
          if imgCreateFail then initFits
          else { initFits with image := some (bp, naxes) }
        let status1 : Nat := if imgCreateFail then 1 else 0
        match arr.pAttributeList with
        | none => ⟨.asynSuccess, true, some pf1⟩
        | some attrs =>
          match writeAttrs keyFail pf1 status1 attrs with
          | .error pf2 => ⟨.asynError, true, some pf2⟩
          | .ok r =>
            if r.2 > 0 then ⟨.asynError, true, some r.1⟩
            else ⟨.asynSuccess, true, some r.1⟩

/- NDFileFITS::readFile (NDFileFITS.cpp lines 413-418): not implemented,
   always returns asynError. -/
def readFile : AsynStatus := .asynError

/- NDFileFITS::closeFile (NDFileFITS.cpp lines 421-430): calls
   fits_close_file (whose status, supplied here by the oracle `closeFail`,
   is ignored), clears this->pFits, and returns asynSuccess.  The returned
   pair is (returned status, handle after the call). -/
def closeFile (closeFail : Bool) (pFits : Option FitsState) :
    AsynStatus × Option FitsState :=
  let _status : Nat := if closeFail then 1 else 0
  (.asynSuccess, none)

/- ------------------------------------------------------------------ -/
/- Helper lemmas about the flip-copy loop.                             -/
/- ------------------------------------------------------------------ -/

/- The destination index of the flip-copy loop body. -/
def dstIdx (w h z x y : Nat) : Nat := z * (w * h) + (h - 1 - y) * w + x

/- The source index of the flip-copy loop body. -/
def srcIdx (w h z x y : Nat) : Nat := z * (w * h) + y * w + x

/- The loop triples (z, x, y) of the three nested loops, in execution
   order. -/
def tripleList (w h d : Nat) : List (Nat × Nat × Nat) :=
  (List.range d).flatMap (fun z =>
    (List.range w).flatMap (fun x =>
      (List.range h).map (fun y => (z, x, y))))

lemma foldl_flatMap {α β γ : Type} (l : List α) (f : α → List β)
    (g : γ → β → γ) (init : γ) :
    (l.flatMap f).foldl g init =
      l.foldl (fun acc a => (f a).foldl g acc) init := by
  induction l generalizing init with
  | nil => rfl
  | cons a t ih => simp [List.flatMap_cons, List.foldl_append, ih]

lemma flipCopy_eq_foldl (src : List Int) (w h d : Nat)
    (dst : List (Option Int)) :
    flipCopy src w h d dst =
      (tripleList w h d).foldl
        (fun acc t => acc.set (dstIdx w h t.1 t.2.1 t.2.2)
          (src[srcIdx w h t.1 t.2.1 t.2.2]?)) dst := by
  simp [flipCopy, tripleList, foldl_flatMap, List.foldl_map, dstIdx, srcIdx]

lemma mem_tripleList {w h d : Nat} {t : Nat × Nat × Nat} :
    t ∈ tripleList w h d ↔ t.1 < d ∧ t.2.1 < w ∧ t.2.2 < h := by
  obtain ⟨z, x, y⟩ := t
  simp [tripleList, List.mem_flatMap, List.mem_map, List.mem_range]
  constructor
  · rintro ⟨z', hz', x', hx', y', hy', rfl, rfl, rfl⟩
    exact ⟨hz', hx', hy'⟩
  · rintro ⟨hz, hx, hy⟩
    exact ⟨z, hz, x, hx, y, hy, rfl, rfl, rfl⟩

lemma length_foldl_set {ι α : Type} (l : List ι) (tgt : ι → Nat)
    (val : ι → α) (init : List α) :
    (l.foldl (fun acc i => acc.set (tgt i) (val i)) init).length =
      init.length := by
  induction l generalizing init with
  | nil => rfl
  | cons a t ih => simp [List.foldl_cons, ih, List.length_set]

lemma getElem?_foldl_set_of_notin {ι α : Type} (l : List ι) (tgt : ι → Nat)
    (val : ι → α) (init : List α) (t : Nat)
    (ht : ∀ i ∈ l, tgt i ≠ t) :
    (l.foldl (fun acc i => acc.set (tgt i) (val i)) init)[t]? = init[t]? := by
  induction l generalizing init with
  | nil => rfl
  | cons a rest ih =>
    rw [List.foldl_cons, ih _ (fun i hi => ht i (List.mem_cons_of_mem a hi))]
    exact List.getElem?_set_ne (ht a (List.mem_cons_self a rest))

lemma getElem?_foldl_set {ι α : Type} (l : List ι) (tgt : ι → Nat)
    (val : ι → α) (init : List α) (i0 : ι) (hmem : i0 ∈ l)
    (hinj : ∀ i ∈ l, tgt i = tgt i0 → i = i0)
    (hlen : tgt i0 < init.length) :
    (l.foldl (fun acc i => acc.set (tgt i) (val i)) init)[tgt i0]? =
      some (val i0) := by
  induction l generalizing init with
  | nil => cases hmem
  | cons a rest ih =>
    rw [List.foldl_cons]
    by_cases hr : i0 ∈ rest
    · exact ih (init.set (tgt a) (val a)) hr
        (fun i hi => hinj i (List.mem_cons_of_mem a hi))
        (by rw [List.length_set]; exact hlen)
    · have ha : a = i0 := by
        rcases List.mem_cons.mp hmem with h | h
        · exact h.symm
        · exact absurd h hr
      subst ha
      rw [getElem?_foldl_set_of_notin]
      · exact List.getElem?_set_eq_of_lt _ hlen
      · intro i hi hne
        exact hr (hinj i (List.mem_cons_of_mem a hi) hne ▸ hi)

lemma length_flipCopy (src : List Int) (w h d : Nat)
    (dst : List (Option Int)) :
    (flipCopy src w h d dst).length = dst.length := by
  rw [flipCopy_eq_foldl]
  exact length_foldl_set _ _ _ _

lemma rowIdx_lt {w h x y : Nat} (hx : x < w) (hy : y < h) :
    (h - 1 - y) * w + x < w * h := by
  have h1 : h - 1 - y + 1 ≤ h := by omega
  calc (h - 1 - y) * w + x < (h - 1 - y) * w + w := by omega
    _ = (h - 1 - y + 1) * w := by rw [Nat.succ_mul]
    _ ≤ h * w := Nat.mul_le_mul_right w h1
    _ = w * h := Nat.mul_comm h w

lemma dstIdx_lt {w h d z x y : Nat} (hz : z < d) (hx : x < w) (hy : y < h) :
    dstIdx w h z x y < w * h * d := by
  have hr := rowIdx_lt hx hy
  have h1 : z + 1 ≤ d := hz
  have h2 : dstIdx w h z x y = z * (w * h) + ((h - 1 - y) * w + x) :=
    Nat.add_assoc _ _ _
  rw [h2]
  calc z * (w * h) + ((h - 1 - y) * w + x) < z * (w * h) + w * h :=
        Nat.add_lt_add_left hr _
    _ = (z + 1) * (w * h) := (Nat.succ_mul z (w * h)).symm
    _ ≤ d * (w * h) := Nat.mul_le_mul_right (w * h) h1
    _ = w * h * d := Nat.mul_comm d (w * h)

lemma dstIdx_inj {w h : Nat} {z x y z' x' y' : Nat}
    (hx : x < w) (hy : y < h) (hx' : x' < w) (hy' : y' < h)
    (he : dstIdx w h z x y = dstIdx w h z' x' y') :
    z = z' ∧ x = x' ∧ y = y' := by
  have hw : 0 < w := Nat.lt_of_le_of_lt (Nat.zero_le x) hx
  have hh : 0 < h := Nat.lt_of_le_of_lt (Nat.zero_le y) hy
  have hwh : 0 < w * h := Nat.mul_pos hw hh
  have hr := rowIdx_lt hx hy
  have hr' := rowIdx_lt hx' hy'
  have he1 : (h - 1 - y) * w + x + (w * h) * z =
      (h - 1 - y') * w + x' + (w * h) * z' := by
    rw [Nat.mul_comm (w * h) z, Nat.mul_comm (w * h) z']
    unfold dstIdx at he
    omega
  have hz : z = z' := by
    have d1 := congrArg (fun n => n / (w * h)) he1
    simp only at d1
    rw [Nat.add_mul_div_left _ _ hwh, Nat.add_mul_div_left _ _ hwh,
      Nat.div_eq_of_lt hr, Nat.div_eq_of_lt hr'] at d1
    omega
  have hrow : (h - 1 - y) * w + x = (h - 1 - y') * w + x' := by
    have m1 := congrArg (fun n => n % (w * h)) he1
    simp only at m1
    rw [Nat.add_mul_mod_self_left, Nat.add_mul_mod_self_left,
      Nat.mod_eq_of_lt hr, Nat.mod_eq_of_lt hr'] at m1
    exact m1
  have he2 : x + w * (h - 1 - y) = x' + w * (h - 1 - y') := by
    rw [Nat.mul_comm w (h - 1 - y), Nat.mul_comm w (h - 1 - y')]
    omega
  have hxx : x = x' := by
    have m2 := congrArg (fun n => n % w) he2
    simp only at m2
    rw [Nat.add_mul_mod_self_left, Nat.add_mul_mod_self_left,
      Nat.mod_eq_of_lt hx, Nat.mod_eq_of_lt hx'] at m2
    exact m2
  have hyy : y = y' := by
    have d2 := congrArg (fun n => n / w) he2
    simp only at d2
    rw [Nat.add_mul_div_left _ _ hw, Nat.add_mul_div_left _ _ hw,
      Nat.div_eq_of_lt hx, Nat.div_eq_of_lt hx'] at d2
    omega
  exact ⟨hz, hxx, hyy⟩

/- The central fact about the flip-copy loop: the cell at destination index
   dstIdx w h z x y of the scratch buffer holds exactly the source sample at
   srcIdx w h z x y, for every in-range triple (z, x, y). -/
lemma flipCopy_getElem? (src : List Int) (w h d : Nat)
    (init : List (Option Int)) {z x y : Nat}
    (hz : z < d) (hx : x < w) (hy : y < h)
    (hlen : dstIdx w h z x y < init.length) :
    (flipCopy src w h d init)[dstIdx w h z x y]? =
      some (src[srcIdx w h z x y]?) := by
  rw [flipCopy_eq_foldl]
  exact getElem?_foldl_set (tripleList w h d)
    (fun t => dstIdx w h t.1 t.2.1 t.2.2)
    (fun t => src[srcIdx w h t.1 t.2.1 t.2.2]?) init (z, x, y)
    (mem_tripleList.mpr ⟨hz, hx, hy⟩)
    (by
      rintro ⟨z', x', y'⟩ hm he
      obtain ⟨hz', hx', hy'⟩ := mem_tripleList.mp hm
      obtain ⟨e1, e2, e3⟩ := dstIdx_inj hx' hy' hx hy he
      simp only [Prod.mk.injEq]
      exact ⟨e1, e2, e3⟩)
    hlen

/- ------------------------------------------------------------------ -/
/- Characterization of writeFile on its non-failing path.              -/
/- ------------------------------------------------------------------ -/

lemma writeFile_ok_char (arr : NDArray) (pf : FitsState) (tc : FitsType)
    (htc : transferCode arr.dataType = some tc) :
    writeFile false false arr pf =
      { status := .asynSuccess
        fits := { pf with
          imgWriteAttempts := pf.imgWriteAttempts + 1
          payload := some (tc, nElementsOf arr,
            (flipCopy arr.pData (whdOf arr).1 (whdOf arr).2.1 (whdOf arr).2.2
              (List.replicate arr.pData.length none)).take (nElementsOf arr)) }
        pOutFreed := true } := by
  simp [writeFile, fits_write_img, htc]

lemma whdOf_two (arr : NDArray) (w h : Nat) (hdims : arr.dims = [w, h]) :
    whdOf arr = (w, h, 1) := by
  simp [whdOf, NDArray.ndims, hdims]

lemma whdOf_three (arr : NDArray) (w h d : Nat)
    (hdims : arr.dims = [w, h, d]) : whdOf arr = (w, h, d) := by
  simp [whdOf, NDArray.ndims, hdims]

lemma whdOf_one (arr : NDArray) (n : Nat) (hdims : arr.dims = [n]) :
    whdOf arr = (n, 1, 1) := by
  simp [whdOf, NDArray.ndims, hdims]

lemma nElementsOf_one (arr : NDArray) (n : Nat) (hdims : arr.dims = [n]) :
    nElementsOf arr = n := by
  simp [nElementsOf, hdims]

lemma nElementsOf_two (arr : NDArray) (w h : Nat)
    (hdims : arr.dims = [w, h]) : nElementsOf arr = w * h := by
  simp [nElementsOf, hdims]

lemma nElementsOf_three (arr : NDArray) (w h d : Nat)
    (hdims : arr.dims = [w, h, d]) : nElementsOf arr = w * h * d := by
  simp [nElementsOf, hdims]

/- With h = d = 1 (the rank-1 configuration) the flip-copy loop writes every
   cell of a full-size scratch buffer with the source sample of the same
   index: the transform is the identity. -/
lemma flipCopy_one_dim (src : List Int) (w : Nat) (hw : src.length = w) :
    flipCopy src w 1 1 (List.replicate src.length none) = src.map some := by
  apply List.ext_getElem?
  intro n
  by_cases hn : n < w
  · have hd : dstIdx w 1 0 n 0 = n := by simp [dstIdx]
    have hs : srcIdx w 1 0 n 0 = n := by simp [srcIdx]
    have hlen : dstIdx w 1 0 n 0 <
        (List.replicate src.length (none : Option Int)).length := by
      rw [hd, List.length_replicate, hw]; exact hn
    have hmain := flipCopy_getElem? src w 1 1 (List.replicate src.length none)
      (z := 0) (x := n) (y := 0) Nat.one_pos hn Nat.one_pos hlen
    rw [hd, hs] at hmain
    rw [hmain, List.getElem?_map]
    have hn' : n < src.length := hw ▸ hn
    rw [List.getElem?_eq_getElem hn']
    rfl
  · have h1 : (flipCopy src w 1 1 (List.replicate src.length none)).length ≤ n := by
      rw [length_flipCopy, List.length_replicate]; omega
    have h2 : (src.map some).length ≤ n := by
      rw [List.length_map]; omega
    rw [List.getElem?_eq_none h1, List.getElem?_eq_none h2]

/- ------------------------------------------------------------------ -/
/- Claim theorems about writeFile.                                     -/
/- ------------------------------------------------------------------ -/

/-- C2: for every 2-dimensional array of a supported sample type with width
w = dims[0] and height h = dims[1], the sample at source row y, column x
appears in writeFile's pixel payload at row h-1-y, column x — no horizontal
flip and no column reordering; and for every 3-dimensional array each depth
slice is flipped the same way independently, with slice (z) order
preserved. -/
theorem writeFile_vertical_flip (arr : NDArray) (pf : FitsState)
    (tc : FitsType) (htc : transferCode arr.dataType = some tc) :
    (∀ w h, arr.dims = [w, h] → arr.pData.length = w * h →
      ∃ buf, (writeFile false false arr pf).fits.payload =
          some (tc, w * h, buf) ∧
        ∀ x y, x < w → y < h →
          buf[(h - 1 - y) * w + x]? = some (arr.pData[y * w + x]?)) ∧
    (∀ w h d, arr.dims = [w, h, d] → arr.pData.length = w * h * d →
      ∃ buf, (writeFile false false arr pf).fits.payload =
          some (tc, w * h * d, buf) ∧
        ∀ x y z, x < w → y < h → z < d →
          buf[z * (w * h) + (h - 1 - y) * w + x]? =
            some (arr.pData[z * (w * h) + y * w + x]?)) := by
  constructor
  · intro w h hdims hlen
    have hkey : (writeFile false false arr pf).fits.payload =
        some (tc, w * h,
          flipCopy arr.pData w h 1 (List.replicate (w * h) none)) := by
      rw [writeFile_ok_char arr pf tc htc]
      simp only [nElementsOf_two arr w h hdims, whdOf_two arr w h hdims, hlen]
      rw [List.take_of_length_le]
      rw [length_flipCopy, List.length_replicate]
    refine ⟨_, hkey, ?_⟩
    intro x y hx hy
    have hd : dstIdx w h 0 x y = (h - 1 - y) * w + x := by simp [dstIdx]
    have hs : srcIdx w h 0 x y = y * w + x := by simp [srcIdx]
    have hl : dstIdx w h 0 x y < (List.replicate (w * h) (none : Option Int)).length := by
      rw [hd, List.length_replicate]; exact rowIdx_lt hx hy
    have hmain := flipCopy_getElem? arr.pData w h 1
      (List.replicate (w * h) none) (z := 0) (x := x) (y := y)
      Nat.one_pos hx hy hl
    rw [hd, hs] at hmain
    exact hmain
  · intro w h d hdims hlen
    have hkey : (writeFile false false arr pf).fits.payload =
        some (tc, w * h * d,
          flipCopy arr.pData w h d (List.replicate (w * h * d) none)) := by
      rw [writeFile_ok_char arr pf tc htc]
      simp only [nElementsOf_three arr w h d hdims, whdOf_three arr w h d hdims, hlen]
      rw [List.take_of_length_le]
      rw [length_flipCopy, List.length_replicate]
    refine ⟨_, hkey, ?_⟩
    intro x y z hx hy hz
    have hd2 : dstIdx w h z x y = z * (w * h) + (h - 1 - y) * w + x := rfl
    have hs2 : srcIdx w h z x y = z * (w * h) + y * w + x := rfl
    have hl : dstIdx w h z x y < (List.replicate (w * h * d) (none : Option Int)).length := by
      rw [List.length_replicate]; exact dstIdx_lt hz hx hy
    have hmain := flipCopy_getElem? arr.pData w h d
      (List.replicate (w * h * d) none) (z := z) (x := x) (y := y) hz hx hy hl
    rw [hd2, hs2] at hmain
    exact hmain

/-- Witness for C2: a concrete 2x2 uint8 array [10, 11, 12, 13] (rows
[10, 11] and [12, 13]); the sample at source row 0, column 1 (value 11)
appears at output row 1, column 1. -/
theorem writeFile_vertical_flip_witness :
    ∃ buf, (writeFile false false
        { dims := [2, 2], dataType := .NDUInt8, pData := [10, 11, 12, 13],
          pAttributeList := none } initFits).fits.payload =
        some (.TBYTE, 2 * 2, buf) ∧
      buf[(2 - 1 - 0) * 2 + 1]? =
        some (([10, 11, 12, 13] : List Int)[0 * 2 + 1]?) := by
  obtain ⟨buf, hp, hb⟩ := (writeFile_vertical_flip
    { dims := [2, 2], dataType := .NDUInt8, pData := [10, 11, 12, 13],
      pAttributeList := none } initFits .TBYTE rfl).1 2 2 rfl rfl
  exact ⟨buf, hp, hb 1 0 (by decide) (by decide)⟩

/-- C9: for every 1-dimensional array of a supported sample type,
writeFile's row-flip transform is the identity: the scratch buffer written
as the pixel payload equals the source buffer element for element. -/
theorem writeFile_rank1_identity (arr : NDArray) (pf : FitsState)
    (tc : FitsType) (n : Nat) (hdims : arr.dims = [n])
    (hlen : arr.pData.length = n)
    (htc : transferCode arr.dataType = some tc) :
    (writeFile false false arr pf).status = .asynSuccess ∧
    (writeFile false false arr pf).fits.payload =
      some (tc, n, arr.pData.map some) := by
  rw [writeFile_ok_char arr pf tc htc]
  refine ⟨rfl, ?_⟩
  simp only [nElementsOf_one arr n hdims, whdOf_one arr n hdims]
  rw [flipCopy_one_dim arr.pData n hlen]
  rw [List.take_of_length_le (by rw [List.length_map, hlen])]

/-- Witness for C9: the 1-dimensional float32 array [9, 8, 7] is written
unchanged, element for element. -/
theorem writeFile_rank1_identity_witness :
    (writeFile false false
        { dims := [3], dataType := .NDFloat32, pData := [9, 8, 7],
          pAttributeList := none } initFits).status = .asynSuccess ∧
    (writeFile false false
        { dims := [3], dataType := .NDFloat32, pData := [9, 8, 7],
          pAttributeList := none } initFits).fits.payload =
      some (.TFLOAT, 3, ([9, 8, 7] : List Int).map some) :=
  writeFile_rank1_identity
    { dims := [3], dataType := .NDFloat32, pData := [9, 8, 7],
      pAttributeList := none } initFits .TFLOAT 3 rfl rfl rfl

/-- C1 (refuting evaluation): for the 4-dimensional int8 array with
dims = [2, 1, 1, 1] and samples [5, 7], writeFile reports success but the
pixel payload it commits is [some 5, none]: only sample 0 was copied into
the scratch buffer and the cell at index 1 is still uninitialized, so the
written buffer does not reproduce the input buffer (sample 7 is lost),
contrary to the claim that for rank >= 4 every input sample appears
unchanged at the same index. -/
theorem writeFile_rank4_scratch_uninitialized :
    (writeFile false false
        { dims := [2, 1, 1, 1], dataType := .NDInt8, pData := [5, 7],
          pAttributeList := none } initFits).status = .asynSuccess ∧
    (writeFile false false
        { dims := [2, 1, 1, 1], dataType := .NDInt8, pData := [5, 7],
          pAttributeList := none } initFits).fits.payload =
      some (.TSBYTE, 2, [some 5, none]) := by
  constructor <;> rfl

/-- C3 (refuting evaluation): writeFile on an array whose sample type is
outside the mapping table returns from the switch's `default:` case without
reaching the free(pOut) call: the scratch buffer, although successfully
allocated, is not released on this exit path. -/
theorem writeFile_unsupported_type_leaks_scratch :
    (writeFile false false
        { dims := [2], dataType := .NDOther 100, pData := [5, 7],
          pAttributeList := none } initFits).status = .asynError ∧
    (writeFile false false
        { dims := [2], dataType := .NDOther 100, pData := [5, 7],
          pAttributeList := none } initFits).pOutFreed = false := by
  constructor <;> rfl

/-- C7: for every array whose sample type is outside the fixed mapping
table, writeFile returns asynError and leaves the file state untouched —
in particular no pixel data is written. -/
theorem writeFile_unsupported_type_error (mallocFail imgFail : Bool)
    (arr : NDArray) (pf : FitsState)
    (htc : transferCode arr.dataType = none) :
    (writeFile mallocFail imgFail arr pf).status = .asynError ∧
    (writeFile mallocFail imgFail arr pf).fits = pf := by
  cases mallocFail <;> simp [writeFile, htc]

/-- Witness for C7: a concrete unsupported sample type. -/
theorem writeFile_unsupported_type_error_witness :
    transferCode (NDDataType.NDOther 9) = none ∧
    ((writeFile false false
        { dims := [1], dataType := .NDOther 9, pData := [0],
          pAttributeList := none } initFits).status = .asynError ∧
      (writeFile false false
        { dims := [1], dataType := .NDOther 9, pData := [0],
          pAttributeList := none } initFits).fits = initFits) :=
  ⟨rfl, writeFile_unsupported_type_error false false
    { dims := [1], dataType := .NDOther 9, pData := [0],
      pAttributeList := none } initFits rfl⟩

/-- C8: closeFile always returns asynSuccess and leaves the file handle
cleared (none), for every prior handle state and every outcome of the
underlying fits_close_file call. -/
theorem closeFile_always_succeeds (closeFail : Bool)
    (pFits : Option FitsState) :
    closeFile closeFail pFits = (.asynSuccess, none) := rfl

/- ------------------------------------------------------------------ -/
/- Helper lemmas about the attribute loop of openFile.                 -/
/- ------------------------------------------------------------------ -/

lemma writeAttrs_cons_skip {a : NDAttribute} (haa : attrAction a = .skip)
    (kf : Nat → Bool) (pf : FitsState) (st : Nat)
    (rest : List NDAttribute) :
    writeAttrs kf pf st (a :: rest) = writeAttrs kf pf st rest := by
  rw [writeAttrs, haa]

lemma writeAttrs_cons_card {a : NDAttribute} {c : FitsCard}
    (haa : attrAction a = .card c) (kf : Nat → Bool) (pf : FitsState)
    (st : Nat) (rest : List NDAttribute) :
    writeAttrs kf pf st (a :: rest) =
      writeAttrs kf (fits_write_key kf pf c st).1
        (fits_write_key kf pf c st).2 rest := by
  rw [writeAttrs, haa]

lemma writeAttrs_cons_err {a : NDAttribute} (haa : attrAction a = .err)
    (kf : Nat → Bool) (pf : FitsState) (st : Nat)
    (rest : List NDAttribute) :
    writeAttrs kf pf st (a :: rest) = .error pf := by
  rw [writeAttrs, haa]

lemma fits_write_key_preserves (kf : Nat → Bool) (pf : FitsState)
    (c : FitsCard) (st : Nat) :
    (fits_write_key kf pf c st).1.image = pf.image ∧
    (fits_write_key kf pf c st).1.payload = pf.payload ∧
    (fits_write_key kf pf c st).1.imgWriteAttempts = pf.imgWriteAttempts ∧
    (fits_write_key kf pf c st).1.keyWriteAttempts =
      pf.keyWriteAttempts + 1 := by
  simp only [fits_write_key]
  split_ifs <;> simp

lemma writeAttrs_ok_preserves (kf : Nat → Bool) (attrs : List NDAttribute) :
    ∀ (pf : FitsState) (st : Nat) (pf' : FitsState) (st' : Nat),
      writeAttrs kf pf st attrs = .ok (pf', st') →
      pf'.image = pf.image ∧ pf'.payload = pf.payload := by
  induction attrs with
  | nil =>
    intro pf st pf' st' h
    simp only [writeAttrs, Except.ok.injEq, Prod.mk.injEq] at h
    rw [← h.1]
    exact ⟨rfl, rfl⟩
  | cons a rest ih =>
    intro pf st pf' st' h
    cases haa : attrAction a with
    | err => rw [writeAttrs_cons_err haa] at h; cases h
    | skip =>
      rw [writeAttrs_cons_skip haa] at h
      exact ih pf st pf' st' h
    | card c =>
      rw [writeAttrs_cons_card haa] at h
      have h1 := ih _ _ _ _ h
      have h2 := fits_write_key_preserves kf pf c st
      exact ⟨h1.1.trans h2.1, h1.2.trans h2.2.1⟩

lemma filterMap_cardOf_cons_none {a : NDAttribute}
    (h : cardOf a = none) (l : List NDAttribute) :
    (a :: l).filterMap cardOf = l.filterMap cardOf := by
  simp [List.filterMap_cons, h]

lemma filterMap_cardOf_cons_some {a : NDAttribute} {c : FitsCard}
    (h : cardOf a = some c) (l : List NDAttribute) :
    (a :: l).filterMap cardOf = c :: l.filterMap cardOf := by
  simp [List.filterMap_cons, h]

lemma writeAttrs_stPos (kf : Nat → Bool) (attrs : List NDAttribute) :
    ∀ (pf : FitsState) (st : Nat), 0 < st →
    (∀ a ∈ attrs, attrAction a ≠ .err) →
    ∃ pf', writeAttrs kf pf st attrs = .ok (pf', st) ∧
      pf'.cards = pf.cards ∧
      pf'.keyWriteAttempts =
        pf.keyWriteAttempts + (attrs.filterMap cardOf).length := by
  induction attrs with
  | nil =>
    intro pf st _ _
    exact ⟨pf, rfl, rfl, by simp⟩
  | cons a rest ih =>
    intro pf st hst h
    cases haa : attrAction a with
    | err => exact absurd haa (h a (List.mem_cons_self a rest))
    | skip =>
      have hco : cardOf a = none := by simp [cardOf, haa]
      obtain ⟨pf', heq, hc, hk⟩ :=
        ih pf st hst (fun b hb => h b (List.mem_cons_of_mem a hb))
      refine ⟨pf', ?_, hc, ?_⟩
      · rw [writeAttrs_cons_skip haa]; exact heq
      · rw [filterMap_cardOf_cons_none hco]; exact hk
    | card c =>
      have hco : cardOf a = some c := by simp [cardOf, haa]
      have hkey : fits_write_key kf pf c st =
          ({ pf with keyWriteAttempts := pf.keyWriteAttempts + 1 }, st) := by
        simp [fits_write_key, hst]
      obtain ⟨pf', heq, hc, hk⟩ :=
        ih { pf with keyWriteAttempts := pf.keyWriteAttempts + 1 } st hst
          (fun b hb => h b (List.mem_cons_of_mem a hb))
      have hmid : ({ pf with keyWriteAttempts := pf.keyWriteAttempts + 1 }
          : FitsState).keyWriteAttempts = pf.keyWriteAttempts + 1 := rfl
      refine ⟨pf', ?_, hc, ?_⟩
      · rw [writeAttrs_cons_card haa, hkey]; exact heq
      · rw [filterMap_cardOf_cons_some hco, List.length_cons]
        omega

lemma writeAttrs_noFail (attrs : List NDAttribute) :
    ∀ pf : FitsState, (∀ a ∈ attrs, attrAction a ≠ .err) →
    ∃ pf', writeAttrs (fun _ => false) pf 0 attrs = .ok (pf', 0) ∧
      pf'.cards = pf.cards ++ attrs.filterMap cardOf ∧
      pf'.keyWriteAttempts =
        pf.keyWriteAttempts + (attrs.filterMap cardOf).length := by
  induction attrs with
  | nil =>
    intro pf _
    exact ⟨pf, rfl, by simp, by simp⟩
  | cons a rest ih =>
    intro pf h
    cases haa : attrAction a with
    | err => exact absurd haa (h a (List.mem_cons_self a rest))
    | skip =>
      have hco : cardOf a = none := by simp [cardOf, haa]
      obtain ⟨pf', heq, hc, hk⟩ :=
        ih pf (fun b hb => h b (List.mem_cons_of_mem a hb))
      refine ⟨pf', ?_, ?_, ?_⟩
      · rw [writeAttrs_cons_skip haa]; exact heq
      · rw [filterMap_cardOf_cons_none hco]; exact hc
      · rw [filterMap_cardOf_cons_none hco]; exact hk
    | card c =>
      have hco : cardOf a = some c := by simp [cardOf, haa]
      have hkey : fits_write_key (fun _ => false) pf c 0 =
          ({ pf with
              keyWriteAttempts := pf.keyWriteAttempts + 1
              cards := pf.cards ++ [c] }, 0) := by
        simp [fits_write_key]
      obtain ⟨pf', heq, hc, hk⟩ :=
        ih { pf with
              keyWriteAttempts := pf.keyWriteAttempts + 1
              cards := pf.cards ++ [c] }
          (fun b hb => h b (List.mem_cons_of_mem a hb))
      have hmid : ({ pf with
          keyWriteAttempts := pf.keyWriteAttempts + 1
          cards := pf.cards ++ [c] } : FitsState).keyWriteAttempts =
          pf.keyWriteAttempts + 1 := rfl
      refine ⟨pf', ?_, ?_, ?_⟩
      · rw [writeAttrs_cons_card haa, hkey]; exact heq
      · rw [filterMap_cardOf_cons_some hco]
        have happ : pf.cards ++ c :: rest.filterMap cardOf =
            (pf.cards ++ [c]) ++ rest.filterMap cardOf := by simp
        rw [happ]; exact hc
      · rw [filterMap_cardOf_cons_some hco, List.length_cons]
        omega

lemma writeAttrs_abort (kf : Nat → Bool) (bad : NDAttribute)
    (rest : List NDAttribute) (hbad : attrAction bad = .err) :
    ∀ (pre : List NDAttribute) (pf : FitsState) (st : Nat),
    (∀ a ∈ pre, attrAction a ≠ .err) →
    ∃ pf', writeAttrs kf pf st (pre ++ bad :: rest) = .error pf' := by
  intro pre
  induction pre with
  | nil =>
    intro pf st _
    exact ⟨pf, by rw [List.nil_append, writeAttrs_cons_err hbad]⟩
  | cons a pre' ih =>
    intro pf st h
    cases haa : attrAction a with
    | err => exact absurd haa (h a (List.mem_cons_self a pre'))
    | skip =>
      obtain ⟨pf', heq⟩ :=
        ih pf st (fun b hb => h b (List.mem_cons_of_mem a hb))
      exact ⟨pf', by rw [List.cons_append, writeAttrs_cons_skip haa]; exact heq⟩
    | card c =>
      obtain ⟨pf', heq⟩ :=
        ih (fits_write_key kf pf c st).1 (fits_write_key kf pf c st).2
          (fun b hb => h b (List.mem_cons_of_mem a hb))
      exact ⟨pf', by rw [List.cons_append, writeAttrs_cons_card haa]; exact heq⟩

lemma writeAttrs_failWindow (kf : Nat → Bool) (attrs : List NDAttribute) :
    ∀ (pf : FitsState) (k : Nat),
    (∀ a ∈ attrs, attrAction a ≠ .err) →
    (∀ j, j < k → kf (pf.keyWriteAttempts + j) = false) →
    kf (pf.keyWriteAttempts + k) = true →
    k < (attrs.filterMap cardOf).length →
    ∃ pf', writeAttrs kf pf 0 attrs = .ok (pf', 1) ∧
      pf'.cards = pf.cards ++ (attrs.filterMap cardOf).take k ∧
      pf'.keyWriteAttempts =
        pf.keyWriteAttempts + (attrs.filterMap cardOf).length := by
  induction attrs with
  | nil =>
    intro pf k _ _ _ hk
    simp at hk
  | cons a rest ih =>
    intro pf k h hwin hfail hk
    cases haa : attrAction a with
    | err => exact absurd haa (h a (List.mem_cons_self a rest))
    | skip =>
      have hco : cardOf a = none := by simp [cardOf, haa]
      rw [filterMap_cardOf_cons_none hco] at hk
      obtain ⟨pf', heq, hc, hkk⟩ :=
        ih pf k (fun b hb => h b (List.mem_cons_of_mem a hb)) hwin hfail hk
      refine ⟨pf', ?_, ?_, ?_⟩
      · rw [writeAttrs_cons_skip haa]; exact heq
      · rw [filterMap_cardOf_cons_none hco]; exact hc
      · rw [filterMap_cardOf_cons_none hco]; exact hkk
    | card c =>
      have hco : cardOf a = some c := by simp [cardOf, haa]
      rw [filterMap_cardOf_cons_some hco] at hk
      cases k with
      | zero =>
        have hf : kf pf.keyWriteAttempts = true := by
          simpa using hfail
        have hkey : fits_write_key kf pf c 0 =
            ({ pf with keyWriteAttempts := pf.keyWriteAttempts + 1 }, 1) := by
          simp [fits_write_key, hf]
        obtain ⟨pf', heq, hc', hkk⟩ :=
          writeAttrs_stPos kf rest
            { pf with keyWriteAttempts := pf.keyWriteAttempts + 1 } 1
            Nat.one_pos (fun b hb => h b (List.mem_cons_of_mem a hb))
        have hmid : ({ pf with keyWriteAttempts := pf.keyWriteAttempts + 1 }
            : FitsState).keyWriteAttempts = pf.keyWriteAttempts + 1 := rfl
        refine ⟨pf', ?_, ?_, ?_⟩
        · rw [writeAttrs_cons_card haa, hkey]; exact heq
        · simpa using hc'
        · rw [filterMap_cardOf_cons_some hco, List.length_cons]
          omega
      | succ k2 =>
        have hf0 : kf pf.keyWriteAttempts = false := by
          simpa using hwin 0 (Nat.succ_pos k2)
        have hkey : fits_write_key kf pf c 0 =
            ({ pf with
                keyWriteAttempts := pf.keyWriteAttempts + 1
                cards := pf.cards ++ [c] }, 0) := by
          simp [fits_write_key, hf0]
        have hmid : ({ pf with
            keyWriteAttempts := pf.keyWriteAttempts + 1
            cards := pf.cards ++ [c] } : FitsState).keyWriteAttempts =
            pf.keyWriteAttempts + 1 := rfl
        have hwin2 : ∀ j, j < k2 →
            kf (({ pf with
              keyWriteAttempts := pf.keyWriteAttempts + 1
              cards := pf.cards ++ [c] } : FitsState).keyWriteAttempts + j) =
              false := by
          intro j hj
          rw [hmid]
          have harith : pf.keyWriteAttempts + 1 + j =
              pf.keyWriteAttempts + (j + 1) := by omega
          rw [harith]
          exact hwin (j + 1) (by omega)
        have hfail2 : kf (({ pf with
            keyWriteAttempts := pf.keyWriteAttempts + 1
            cards := pf.cards ++ [c] } : FitsState).keyWriteAttempts + k2) =
            true := by
          rw [hmid]
          have harith : pf.keyWriteAttempts + 1 + k2 =
              pf.keyWriteAttempts + (k2 + 1) := by omega
          rw [harith]
          exact hfail
        obtain ⟨pf', heq, hc', hkk⟩ :=
          ih { pf with
                keyWriteAttempts := pf.keyWriteAttempts + 1
                cards := pf.cards ++ [c] }
            k2 (fun b hb => h b (List.mem_cons_of_mem a hb))
            hwin2 hfail2
            (by rw [List.length_cons] at hk; omega)
        refine ⟨pf', ?_, ?_, ?_⟩
        · rw [writeAttrs_cons_card haa, hkey]; exact heq
        · rw [filterMap_cardOf_cons_some hco, List.take_succ_cons]
          have happ : pf.cards ++ c :: (rest.filterMap cardOf).take k2 =
              (pf.cards ++ [c]) ++ (rest.filterMap cardOf).take k2 := by simp
          rw [happ]; exact hc'
        · rw [filterMap_cardOf_cons_some hco, List.length_cons]
          omega

/- ------------------------------------------------------------------ -/
/- Characterization of openFile on its happy-path prefix.              -/
/- ------------------------------------------------------------------ -/

lemma openFile_no_attrs (kf : Nat → Bool) (fn : String) (m : Nat)
    (arr : NDArray) (bp : BitpixCode)
    (hm0 : m.testBit 0 = false) (hm2 : m.testBit 2 = false)
    (hnd : arr.ndims ≠ 0)
    (hbp : bitpixOf arr.dataType = some bp)
    (hal : arr.pAttributeList = none) :
    openFile false false false kf fn m arr =
      ⟨.asynSuccess, true, some { initFits with image := some (bp, arr.dims) }⟩ := by
  simp [openFile, hm0, hm2, hnd, hbp, hal]

lemma openFile_with_attrs (kf : Nat → Bool) (fn : String) (m : Nat)
    (arr : NDArray) (attrs : List NDAttribute) (bp : BitpixCode)
    (hm0 : m.testBit 0 = false) (hm2 : m.testBit 2 = false)
    (hnd : arr.ndims ≠ 0)
    (hbp : bitpixOf arr.dataType = some bp)
    (hal : arr.pAttributeList = some attrs) :
    openFile false false false kf fn m arr =
      (match writeAttrs kf { initFits with image := some (bp, arr.dims) }
          0 attrs with
       | .error pf2 => ⟨.asynError, true, some pf2⟩
       | .ok r =>
         if r.2 > 0 then ⟨.asynError, true, some r.1⟩
         else ⟨.asynSuccess, true, some r.1⟩) := by
  simp [openFile, hm0, hm2, hnd, hbp, hal]

/- ------------------------------------------------------------------ -/
/- Per-attribute card facts.                                           -/
/- ------------------------------------------------------------------ -/

lemma cardOf_isSome_of (a : NDAttribute) (h1 : attrAction a ≠ .err)
    (h2 : a.dataType ≠ .NDAttrUndefined) : (cardOf a).isSome = true := by
  cases hdt : a.dataType <;>
    simp [cardOf, attrAction, hdt] at h1 h2 ⊢

lemma length_filterMap_cardOf (l : List NDAttribute)
    (h : ∀ a ∈ l, (cardOf a).isSome = true) :
    (l.filterMap cardOf).length = l.length := by
  induction l with
  | nil => rfl
  | cons a rest ih =>
    have ha := h a (List.mem_cons_self a rest)
    obtain ⟨c, hc⟩ := Option.isSome_iff_exists.mp ha
    rw [filterMap_cardOf_cons_some hc, List.length_cons, List.length_cons,
      ih (fun b hb => h b (List.mem_cons_of_mem a hb))]

/- ------------------------------------------------------------------ -/
/- Claim theorems about openFile and the full cycle.                   -/
/- ------------------------------------------------------------------ -/

/-- C6: for every file name, array, and open-mode mask with the read bit
(0x1) or the append bit (0x4) set, openFile returns asynError and creates no
file on disk, whatever the backend oracles would do. -/
theorem openFile_read_append_no_file (createFail naxesFail imgCreateFail : Bool)
    (kf : Nat → Bool) (fn : String) (m : Nat) (arr : NDArray)
    (hm : m.testBit 0 = true ∨ m.testBit 2 = true) :
    (openFile createFail naxesFail imgCreateFail kf fn m arr).status =
      .asynError ∧
    (openFile createFail naxesFail imgCreateFail kf fn m arr).fileCreated =
      false := by
  rcases hm with h | h
  · simp [openFile, h]
  · cases h0 : m.testBit 0 <;> simp [openFile, h0, h]

/-- Witness for C6: open mode 4 (the append bit). -/
theorem openFile_read_append_no_file_witness :
    ((4 : Nat).testBit 0 = true ∨ (4 : Nat).testBit 2 = true) ∧
    ((openFile false false false (fun _ => false) "out.fits" 4
        { dims := [2], dataType := .NDUInt8, pData := [0, 0],
          pAttributeList := none }).status = .asynError ∧
      (openFile false false false (fun _ => false) "out.fits" 4
        { dims := [2], dataType := .NDUInt8, pData := [0, 0],
          pAttributeList := none }).fileCreated = false) :=
  ⟨Or.inr (by decide),
   openFile_read_append_no_file false false false (fun _ => false)
     "out.fits" 4
     { dims := [2], dataType := .NDUInt8, pData := [0, 0],
       pAttributeList := none }
     (Or.inr (by decide))⟩

/-- C4: when openFile reaches the attribute loop, (i) if the attribute list
holds only entries of mapped or undefined type, openFile succeeds and writes
exactly the cards of the mapped entries, in list order, one per mapped entry
(undefined entries are skipped silently); (ii) every card carries its
attribute's name, value, and description; (iii) the first entry of any other
unmapped type makes openFile return asynError. -/
theorem openFile_attribute_cards (fn : String) (m : Nat) (arr : NDArray)
    (attrs : List NDAttribute) (bp : BitpixCode)
    (hm0 : m.testBit 0 = false) (hm2 : m.testBit 2 = false)
    (hnd : arr.ndims ≠ 0)
    (hbp : bitpixOf arr.dataType = some bp)
    (hal : arr.pAttributeList = some attrs) :
    ((∀ a ∈ attrs, attrAction a ≠ .err) →
      (openFile false false false (fun _ => false) fn m arr).status =
        .asynSuccess ∧
      ∃ pf, (openFile false false false (fun _ => false) fn m arr).pFits =
          some pf ∧
        pf.cards = attrs.filterMap cardOf ∧
        ((∀ a ∈ attrs, a.dataType ≠ .NDAttrUndefined) →
          pf.cards.length = attrs.length)) ∧
    (∀ (a : NDAttribute) (c : FitsCard), cardOf a = some c →
      c.name = a.name ∧ c.comment = a.description ∧
      (c.value = .num a.ival ∨ c.value = .str (strTrunc a.sval))) ∧
    (∀ pre bad rest, attrs = pre ++ bad :: rest →
      (∀ a ∈ pre, attrAction a ≠ .err) → attrAction bad = .err →
      (openFile false false false (fun _ => false) fn m arr).status =
        .asynError) := by
  have hrw := openFile_with_attrs (fun _ => false) fn m arr attrs bp
    hm0 hm2 hnd hbp hal
  refine ⟨?_, ?_, ?_⟩
  · intro herr
    obtain ⟨pf', heq, hc, hk⟩ := writeAttrs_noFail attrs
      { initFits with image := some (bp, arr.dims) } herr
    have hres : openFile false false false (fun _ => false) fn m arr =
        ⟨.asynSuccess, true, some pf'⟩ := by
      rw [hrw, heq]
      rfl
    rw [hres]
    refine ⟨rfl, pf', rfl, ?_, ?_⟩
    · simpa [initFits] using hc
    · intro hundef
      have hcards : pf'.cards = attrs.filterMap cardOf := by
        simpa [initFits] using hc
      rw [hcards]
      exact length_filterMap_cardOf attrs
        (fun a ha => cardOf_isSome_of a (herr a ha) (hundef a ha))
  · intro a c h
    cases hdt : a.dataType <;>
      simp [cardOf, attrAction, hdt] at h <;>
      simp [← h, strTrunc]
  · intro pre bad rest hsplit hpre hbad
    obtain ⟨pf', heq⟩ := writeAttrs_abort (fun _ => false) bad rest hbad pre
      { initFits with image := some (bp, arr.dims) } 0 hpre
    rw [hsplit] at hrw
    have hres : openFile false false false (fun _ => false) fn m arr =
        ⟨.asynError, true, some pf'⟩ := by
      rw [hrw, heq]
    rw [hres]

/-- Witness for C4: a three-entry list (int32, undefined, string): two cards
in order, the undefined entry skipped, success; and prepending an entry of
unmapped type 42 aborts with asynError. -/
theorem openFile_attribute_cards_witness :
    ((openFile false false false (fun _ => false) "out.fits" 2
        { dims := [2], dataType := .NDUInt8, pData := [0, 0],
          pAttributeList := some
            [{ name := "GAIN", description := "detector gain",
               dataType := .NDAttrInt32, ival := 7, sval := "" },
             { name := "SKIPPED", description := "",
               dataType := .NDAttrUndefined, ival := 0, sval := "" },
             { name := "MODEL", description := "camera model",
               dataType := .NDAttrString, ival := 0, sval := "acme" }]
        }).status = .asynSuccess ∧
      ∃ pf, (openFile false false false (fun _ => false) "out.fits" 2
        { dims := [2], dataType := .NDUInt8, pData := [0, 0],
          pAttributeList := some
            [{ name := "GAIN", description := "detector gain",
               dataType := .NDAttrInt32, ival := 7, sval := "" },
             { name := "SKIPPED", description := "",
               dataType := .NDAttrUndefined, ival := 0, sval := "" },
             { name := "MODEL", description := "camera model",
               dataType := .NDAttrString, ival := 0, sval := "acme" }]
        }).pFits = some pf ∧
        pf.cards =
          [{ name := "GAIN", description := "detector gain",
             dataType := .NDAttrInt32, ival := 7, sval := "" },
           { name := "SKIPPED", description := "",
             dataType := .NDAttrUndefined, ival := 0, sval := "" },
           { name := "MODEL", description := "camera model",
             dataType := .NDAttrString, ival := 0, sval := "acme" }
          ].filterMap cardOf) := by
  obtain ⟨hst, pf, hpf, hcards, _⟩ :=
    (openFile_attribute_cards "out.fits" 2
      { dims := [2], dataType := .NDUInt8, pData := [0, 0],
        pAttributeList := some
          [{ name := "GAIN", description := "detector gain",
             dataType := .NDAttrInt32, ival := 7, sval := "" },
           { name := "SKIPPED", description := "",
             dataType := .NDAttrUndefined, ival := 0, sval := "" },
           { name := "MODEL", description := "camera model",
             dataType := .NDAttrString, ival := 0, sval := "acme" }] }
      [{ name := "GAIN", description := "detector gain",
         dataType := .NDAttrInt32, ival := 7, sval := "" },
       { name := "SKIPPED", description := "",
         dataType := .NDAttrUndefined, ival := 0, sval := "" },
       { name := "MODEL", description := "camera model",
         dataType := .NDAttrString, ival := 0, sval := "acme" }]
      .BYTE_IMG rfl rfl (by decide) rfl rfl).1 (by decide)
  exact ⟨hst, pf, hpf, hcards⟩

/-- C10: a fits_write_key backend failure at the k-th card write does not
abort the attribute iteration: every mapped attribute in the list still gets
its card write attempted (the attempt counter reaches the full number of
mapped entries), and openFile returns the accumulated error only after the
whole list has been traversed. -/
theorem openFile_key_backend_failure_continues (fn : String) (m : Nat)
    (arr : NDArray) (attrs : List NDAttribute) (bp : BitpixCode) (k : Nat)
    (hm0 : m.testBit 0 = false) (hm2 : m.testBit 2 = false)
    (hnd : arr.ndims ≠ 0)
    (hbp : bitpixOf arr.dataType = some bp)
    (hal : arr.pAttributeList = some attrs)
    (herr : ∀ a ∈ attrs, attrAction a ≠ .err)
    (hk : k < (attrs.filterMap cardOf).length) :
    (openFile false false false (fun i => decide (i = k)) fn m arr).status =
      .asynError ∧
    ∃ pf, (openFile false false false (fun i => decide (i = k)) fn m
        arr).pFits = some pf ∧
      pf.keyWriteAttempts = (attrs.filterMap cardOf).length ∧
      pf.cards = (attrs.filterMap cardOf).take k := by
  have hrw := openFile_with_attrs (fun i => decide (i = k)) fn m arr attrs bp
    hm0 hm2 hnd hbp hal
  obtain ⟨pf', heq, hc, hkk⟩ := writeAttrs_failWindow
    (fun i => decide (i = k)) attrs
    { initFits with image := some (bp, arr.dims) } k herr
    (by intro j hj; simp [initFits]; omega)
    (by simp [initFits]) hk
  have hres : openFile false false false (fun i => decide (i = k)) fn m arr =
      ⟨.asynError, true, some pf'⟩ := by
    rw [hrw, heq]
    rfl
  rw [hres]
  refine ⟨rfl, pf', rfl, ?_, ?_⟩
  · simpa [initFits] using hkk
  · simpa [initFits] using hc

/-- Witness for C10: two mapped attributes with the backend failing on the
first card write (k = 0): both writes are attempted, no card lands, and the
error surfaces only after the traversal. -/
theorem openFile_key_backend_failure_continues_witness :
    ((openFile false false false (fun i => decide (i = 0)) "out.fits" 2
        { dims := [2], dataType := .NDUInt8, pData := [0, 0],
          pAttributeList := some
            [{ name := "A", description := "a", dataType := .NDAttrInt8,
               ival := 1, sval := "" },
             { name := "B", description := "b", dataType := .NDAttrFloat64,
               ival := 2, sval := "" }] }).status = .asynError ∧
      ∃ pf, (openFile false false false (fun i => decide (i = 0)) "out.fits" 2
        { dims := [2], dataType := .NDUInt8, pData := [0, 0],
          pAttributeList := some
            [{ name := "A", description := "a", dataType := .NDAttrInt8,
               ival := 1, sval := "" },
             { name := "B", description := "b", dataType := .NDAttrFloat64,
               ival := 2, sval := "" }] }).pFits = some pf ∧
        pf.keyWriteAttempts =
          ([{ name := "A", description := "a", dataType := .NDAttrInt8,
              ival := 1, sval := "" },
            { name := "B", description := "b", dataType := .NDAttrFloat64,
              ival := 2, sval := "" }
           ].filterMap cardOf).length ∧
        pf.cards =
          ([{ name := "A", description := "a", dataType := .NDAttrInt8,
              ival := 1, sval := "" },
            { name := "B", description := "b", dataType := .NDAttrFloat64,
              ival := 2, sval := "" }
           ].filterMap cardOf).take 0) :=
  openFile_key_backend_failure_continues "out.fits" 2
    { dims := [2], dataType := .NDUInt8, pData := [0, 0],
      pAttributeList := some
        [{ name := "A", description := "a", dataType := .NDAttrInt8,
           ival := 1, sval := "" },
         { name := "B", description := "b", dataType := .NDAttrFloat64,
           ival := 2, sval := "" }] }
    [{ name := "A", description := "a", dataType := .NDAttrInt8,
       ival := 1, sval := "" },
     { name := "B", description := "b", dataType := .NDAttrFloat64,
       ival := 2, sval := "" }]
    .BYTE_IMG 0 rfl rfl (by decide) rfl rfl (by decide) (by decide)

/-- C5: for every supported sample type and every array with ndims >= 1, a
successful open followed by write and close yields a finalized file whose
header reports axis sizes equal to the input dims in declaration order and a
bit-depth code equal to the sample type's entry in the fixed mapping table;
the write and close steps themselves succeed. -/
theorem open_write_close_header_geometry (kf : Nat → Bool) (fn : String)
    (m : Nat) (arr : NDArray) (bp : BitpixCode) (tc : FitsType)
    (hm0 : m.testBit 0 = false) (hm2 : m.testBit 2 = false)
    (hnd : 1 ≤ arr.ndims)
    (hbp : bitpixOf arr.dataType = some bp)
    (htc : transferCode arr.dataType = some tc)
    (hopen : (openFile false false false kf fn m arr).status = .asynSuccess) :
    ∃ pf1, (openFile false false false kf fn m arr).pFits = some pf1 ∧
      (writeFile false false arr pf1).status = .asynSuccess ∧
      (writeFile false false arr pf1).fits.image = some (bp, arr.dims) ∧
      (closeFile false (some (writeFile false false arr pf1).fits)).1 =
        .asynSuccess ∧
      ((arr.dataType = .NDInt8 → bp = .SBYTE_IMG) ∧
       (arr.dataType = .NDUInt8 → bp = .BYTE_IMG) ∧
       (arr.dataType = .NDInt16 → bp = .SHORT_IMG) ∧
       (arr.dataType = .NDUInt16 → bp = .USHORT_IMG) ∧
       (arr.dataType = .NDInt32 → bp = .LONG_IMG) ∧
       (arr.dataType = .NDUInt32 → bp = .ULONG_IMG) ∧
       (arr.dataType = .NDFloat32 → bp = .FLOAT_IMG) ∧
       (arr.dataType = .NDFloat64 → bp = .DOUBLE_IMG)) := by
  have hnd0 : arr.ndims ≠ 0 := by omega
  have htable : (arr.dataType = .NDInt8 → bp = .SBYTE_IMG) ∧
      (arr.dataType = .NDUInt8 → bp = .BYTE_IMG) ∧
      (arr.dataType = .NDInt16 → bp = .SHORT_IMG) ∧
      (arr.dataType = .NDUInt16 → bp = .USHORT_IMG) ∧
      (arr.dataType = .NDInt32 → bp = .LONG_IMG) ∧
      (arr.dataType = .NDUInt32 → bp = .ULONG_IMG) ∧
      (arr.dataType = .NDFloat32 → bp = .FLOAT_IMG) ∧
      (arr.dataType = .NDFloat64 → bp = .DOUBLE_IMG) := by
    refine ⟨?_, ?_, ?_, ?_, ?_, ?_, ?_, ?_⟩ <;>
      (intro hdt; rw [hdt] at hbp; simp [bitpixOf] at hbp; exact hbp.symm)
  have hwod : ∀ pf1 : FitsState, pf1.image = some (bp, arr.dims) →
      (writeFile false false arr pf1).status = .asynSuccess ∧
      (writeFile false false arr pf1).fits.image = some (bp, arr.dims) ∧
      (closeFile false (some (writeFile false false arr pf1).fits)).1 =
        .asynSuccess := by
    intro pf1 him
    rw [writeFile_ok_char arr pf1 tc htc]
    exact ⟨rfl, him, rfl⟩
  cases hal : arr.pAttributeList with
  | none =>
    have hrw := openFile_no_attrs kf fn m arr bp hm0 hm2 hnd0 hbp hal
    rw [hrw]
    refine ⟨_, rfl, ?_⟩
    have := hwod { initFits with image := some (bp, arr.dims) } rfl
    exact ⟨this.1, this.2.1, this.2.2, htable⟩
  | some attrs =>
    have hrw := openFile_with_attrs kf fn m arr attrs bp hm0 hm2 hnd0 hbp hal
    rcases hwres : writeAttrs kf
        { initFits with image := some (bp, arr.dims) } 0 attrs with pf2 | r
    · have hres : openFile false false false kf fn m arr =
          ⟨.asynError, true, some pf2⟩ := by rw [hrw, hwres]
      rw [hres] at hopen
      cases hopen
    · by_cases hst : r.2 > 0
      · have hres : openFile false false false kf fn m arr =
            ⟨.asynError, true, some r.1⟩ := by
          rw [hrw, hwres]
          simp [hst]
        rw [hres] at hopen
        cases hopen
      · have hres : openFile false false false kf fn m arr =
            ⟨.asynSuccess, true, some r.1⟩ := by
          rw [hrw, hwres]
          simp [hst]
        have him : r.1.image = some (bp, arr.dims) := by
          have hpres := writeAttrs_ok_preserves kf attrs
            { initFits with image := some (bp, arr.dims) } 0 r.1 r.2
            (by rw [hwres])
          exact hpres.1
        rw [hres]
        have := hwod r.1 him
        exact ⟨_, rfl, this.1, this.2.1, this.2.2, htable⟩

/-- Witness for C5: a 4x3 float32 array opened (mode 2, no attribute list),
written and closed; the header reports axes [4, 3] and FLOAT_IMG. -/
theorem open_write_close_header_geometry_witness :
    ∃ pf1, (openFile false false false (fun _ => false) "out.fits" 2
        { dims := [4, 3], dataType := .NDFloat32,
          pData := List.replicate 12 0, pAttributeList := none }).pFits =
        some pf1 ∧
      (writeFile false false
        { dims := [4, 3], dataType := .NDFloat32,
          pData := List.replicate 12 0, pAttributeList := none }
        pf1).status = .asynSuccess ∧
      (writeFile false false
        { dims := [4, 3], dataType := .NDFloat32,
          pData := List.replicate 12 0, pAttributeList := none }
        pf1).fits.image = some (.FLOAT_IMG, [4, 3]) ∧
      (closeFile false (some (writeFile false false
        { dims := [4, 3], dataType := .NDFloat32,
          pData := List.replicate 12 0, pAttributeList := none }
        pf1).fits)).1 = .asynSuccess := by
  obtain ⟨pf1, hpf, hws, him, hcl, _⟩ :=
    open_write_close_header_geometry (fun _ => false) "out.fits" 2
      { dims := [4, 3], dataType := .NDFloat32,
        pData := List.replicate 12 0, pAttributeList := none }
      .FLOAT_IMG .TFLOAT rfl rfl (by decide) rfl rfl (by rfl)
  exact ⟨pf1, hpf, hws, him, hcl⟩

end NDFileFITS
